import Mathlib

/-!
Shallow embedding of the MailLogSentinel extraction-and-enrichment pipeline
(bin/ipinfo.py, lib/maillogsentinel/{utils,parser,log_utils,dns_utils,log_reader}.py)
together with proofs settling the frozen specification claims.

Conventions of the embedding:
* Python strings are Lean `String`s; file contents are strings of already
  decoded characters (the code opens files with encoding utf-8, errors ignore),
  and byte offsets are character offsets (all inputs of interest are ASCII).
* Machine integers are `Nat`/`Int` (Python ints are unbounded, so no wrap).
* Fallible operations return `Option`/`Except`.
* I/O boundaries (the filesystem, the system resolver, journalctl) are passed
  in explicitly as data: a directory is a list of files, the resolver is a
  function argument, a journal pass is a list of records.
-/

namespace MailLogSentinel

/-! ## Small Python-behaviour helpers -/

/-- Python `str.isspace`-style whitespace, restricted to the ASCII whitespace
characters that `str.strip()` removes and `\s` matches for our inputs. -/
def pyIsSpace (c : Char) : Bool :=
  c = ' ' || c = '\t' || c = '\n' || c = '\r' || c = '\x0b' || c = '\x0c'

/-- Python `str.strip()` on a character list: drop leading and trailing whitespace. -/
def pyStripList (s : List Char) : List Char :=
  ((s.dropWhile pyIsSpace).reverse.dropWhile pyIsSpace).reverse

/-- Python `str.strip()`. -/
def pyStrip (s : String) : String :=
  ⟨pyStripList s.data⟩

/-- Decimal digit test (Python `\d` for ASCII input). -/
def isDigitChar (c : Char) : Bool :=
  '0' ≤ c && c ≤ '9'

/-- Value of a list of decimal digits (most significant first). -/
def digitsToNat (ds : List Char) : Nat :=
  ds.foldl (fun acc c => acc * 10 + (c.toNat - '0'.toNat)) 0

/-- Digit run with Python underscore grouping: `int("1_0") = 10`. A valid body
is digits possibly separated by single underscores, never leading, trailing or
doubled. Returns the digits if the whole list is a valid body. -/
def pyIntBody : List Char → Option (List Char)
  | [] => none
  | [c] => if isDigitChar c then some [c] else none
  | c :: '_' :: rest =>
    if isDigitChar c then (pyIntBody rest).map (fun ds => c :: ds) else none
  | c :: c' :: rest =>
    if isDigitChar c then (pyIntBody (c' :: rest)).map (fun ds => c :: ds) else none

/-- Python `int(s)` for a base-10 string: optional surrounding whitespace,
optional sign, then a digit body. Returns `none` where Python raises
`ValueError`. -/
def pyInt (s : String) : Option Int :=
  match pyStripList s.data with
  | '+' :: rest => (pyIntBody rest).map (fun ds => (digitsToNat ds : Int))
  | '-' :: rest => (pyIntBody rest).map (fun ds => -(digitsToNat ds : Int))
  | body => (pyIntBody body).map (fun ds => (digitsToNat ds : Int))

/-- Left-pad a decimal rendering to two digits: Python `f"{n:02d}"` for `n ≥ 0`. -/
def pad2 (n : Nat) : String :=
  if n < 10 then "0" ++ Nat.repr n else Nat.repr n

/-! ## bin/ipinfo.py — GeoRangeDatabase -/

/-- One row of a loaded IP-range database (`_load_single_db` entry dict).
`startIp`/`endIp` hold the integer value of the stored `ipaddress.ip_address`
objects (comparisons in the search convert them back with `int(...)`). -/
structure GeoEntry where
  startIp : Nat
  endIp : Nat
  country : Option String
  asn : Option String
  aso : Option String
deriving Repr, DecidableEq

/-- Decimal octet of a dotted-quad IPv4 string as `ipaddress` accepts it:
one to three digits, no superfluous leading zero, value at most 255. -/
def parseOctet (s : List Char) : Option Nat :=
  if s ≠ [] ∧ s.length ≤ 3 ∧ s.all isDigitChar ∧ (s.head? = some '0' → s = ['0'])
      ∧ digitsToNat s ≤ 255 then
    some (digitsToNat s)
  else none

/-- Split a character list at every occurrence of `sep` (Python `str.split(sep)`). -/
def splitOnChar (sep : Char) (s : List Char) : List (List Char) :=
  s.foldr
    (fun c acc =>
      match acc with
      | [] => if c = sep then [[], []] else [[c]]
      | cur :: rest => if c = sep then [] :: cur :: rest else (c :: cur) :: rest)
    [[]]

/-- Model of `ip_to_int` (`int(ipaddress.ip_address(ip_str))`) for textual IPv4
addresses; other strings (including IPv6 forms, which no claim exercises) are
treated as invalid and yield `none`, as `ip_to_int` does for a `ValueError`. -/
def ipToInt (s : String) : Option Nat :=
  match (splitOnChar '.' s.data).mapM parseOctet with
  | some [a, b, c, d] => some (((a * 256 + b) * 256 + c) * 256 + d)
  | _ => none

/-- Stable insertion of one entry into a list sorted ascending by `startIp`:
the new entry goes after every existing entry with a key not above its own,
matching the stable `db.sort(key=lambda x: x["start_ip"])`. -/
def insertByStart (e : GeoEntry) : List GeoEntry → List GeoEntry
  | [] => [e]
  | x :: xs =>
    if x.startIp ≤ e.startIp then x :: insertByStart e xs else e :: x :: xs

/-- Stable sort ascending by `startIp` (extensionally the Python list sort). -/
def sortByStart (db : List GeoEntry) : List GeoEntry :=
  db.foldl (fun acc e => insertByStart e acc) []

/-- Value check done by `ipaddress.ip_address(int)`: a packed address value is
valid iff it fits in 128 bits (below 2^32 it is an `IPv4Address`). -/
def validPackedIp (v : Int) : Bool :=
  0 ≤ v ∧ v < (2 : Int) ^ 128

/-- One row of `_load_single_db`'s CSV body turned into an entry, `none` where
the Python loop hits `continue` (wrong column count, non-integer bound, or an
out-of-range packed address value). `dbType` is the `db_type` argument; rows
arrive as the field lists produced by `csv.reader`. -/
def loadRow (dbType : String) (row : List String) : Option GeoEntry :=
  let build (startStr endStr : String) (country asn aso : Option String) :
      Option GeoEntry :=
    match pyInt (pyStrip startStr), pyInt (pyStrip endStr) with
    | some s, some e =>
      if validPackedIp s ∧ validPackedIp e then
        some ⟨s.toNat, e.toNat, country, asn, aso⟩
      else none
    | _, _ => none
  if dbType = "country" then
    match row with
    | startStr :: endStr :: countryCode :: _ =>
      build startStr endStr (some (pyStrip countryCode)) none none
    | _ => none
  else if dbType = "asn" then
    match row with
    | startStr :: endStr :: asn :: aso :: _ =>
      build startStr endStr none (some (pyStrip asn)) (some (pyStrip aso))
    | _ => none
  else none

/-- Model of `_load_single_db` on the row lists `csv.reader` yields: the first
row is the skipped header, malformed body rows are skipped, and the surviving
entries are sorted ascending by `start_ip`. (An absent or unreadable file, and
the `TypeError` a sort mixing IPv4 with IPv6 start addresses would raise, both
make the real function return the empty database; neither path is exercised by
the claims.) -/
def loadSingleDb (dbType : String) (rows : List (List String)) : List GeoEntry :=
  match rows with
  | [] => []
  | _header :: body => sortByStart (body.filterMap (loadRow dbType))

/-- Containment test `start_ip_int <= ip_int <= end_ip_int` from the search. -/
def entryContains (e : GeoEntry) (ip : Nat) : Bool :=
  e.startIp ≤ ip ∧ ip ≤ e.endIp

/-- The `while low <= high` loop of `search_ip_in_database`. `low`/`high` are
`Int` because Python lets `high` reach `-1` (empty window). Out-of-range
subscripts cannot occur on reachable states; they are modelled as a miss. -/
def searchLoop (db : List GeoEntry) (ip : Nat) (low high : Int) :
    Option GeoEntry :=
  if _hlh : low ≤ high then
    let mid := (low + high) / 2
    match _hget : db[mid.toNat]? with
    | none => none
    | some entry =>
      if entryContains entry ip then some entry
      else if ip < entry.startIp then searchLoop db ip low (mid - 1)
      else searchLoop db ip (mid + 1) high
  else none
termination_by (high + 1 - low).toNat
decreasing_by
  · omega
  · omega

/-- Model of `search_ip_in_database` on an already-converted query value (the
string argument goes through `ip_to_int` first; an invalid string returns
`None` before the loop starts). -/
def searchIpInDatabase (db : List GeoEntry) (ip : Nat) : Option GeoEntry :=
  searchLoop db ip 0 ((db.length : Int) - 1)

/-- Model of `search_ip_in_database` on the raw query string. -/
def searchIpInDatabaseStr (db : List GeoEntry) (ipStr : String) :
    Option GeoEntry :=
  match ipToInt ipStr with
  | none => none
  | some ip => searchIpInDatabase db ip

/-- Result dictionary of `IPInfoManager.lookup_ip_info`. -/
structure GeoInfo where
  countryCode : String
  asn : String
  aso : String
deriving Repr, DecidableEq

/-- Python truthiness guard `country_info and country_info.get("country")`:
a present but empty string is falsy and degrades to "N/A". -/
def fieldOrNA (f : Option GeoEntry → Option String) (found : Option GeoEntry) :
    String :=
  match found with
  | none => "N/A"
  | some _ =>
    match f found with
    | some s => if s = "" then "N/A" else s
    | none => "N/A"

/-- Model of `IPInfoManager.lookup_ip_info`: validate the IP, search the
country and ASN databases independently, degrade absent data to "N/A". -/
def lookupIpInfo (countryDb asnDb : List GeoEntry) (ipStr : String) :
    Option GeoInfo :=
  match ipToInt ipStr with
  | none => none
  | some _ =>
    let countryInfo := searchIpInDatabaseStr countryDb ipStr
    let asnInfo := searchIpInDatabaseStr asnDb ipStr
    some
      { countryCode := fieldOrNA (fun e => e.bind GeoEntry.country) countryInfo
        asn := fieldOrNA (fun e => e.bind GeoEntry.asn) asnInfo
        aso := fieldOrNA (fun e => e.bind GeoEntry.aso) asnInfo }

/-- Entries sorted ascending by `start_ip` (the post-load invariant). -/
abbrev SortedByStart (db : List GeoEntry) : Prop :=
  db.Pairwise (fun a b => a.startIp ≤ b.startIp)

/-- Ranges pairwise non-overlapping, listed in ascending order. -/
abbrev DisjointRanges (db : List GeoEntry) : Prop :=
  db.Pairwise (fun a b => a.endIp < b.startIp)

/-- A loaded database with overlapping ranges: sorted ascending by `start_ip`,
yet the range `[0, 1000]` encloses the two later ranges. -/
def dbOver : List GeoEntry :=
  loadSingleDb "country"
    [["start", "end", "country"],
     ["0", "1000", "A"], ["10", "20", "B"], ["30", "40", "C"]]

/-! ## lib/maillogsentinel/dns_utils.py — ReverseDnsCache -/

/-- Observable outcome of the single `socket.gethostbyaddr(ip)` call: a
hostname, or one of the three exception classes the function catches, each
carrying Python's optional `errno` attribute. (Any other exception class is
outside the `except` clause and outside this model.) -/
inductive ResolverOutcome where
  | success (hostname : String)
  | herror (errno : Option Int)
  | gaierror (errno : Option Int)
  | timeout (errno : Option Int)
deriving Repr, DecidableEq

/-- Model of `_perform_actual_reverse_lookup`: classify the outcome into the
returned `(hostname-or-None, error-string-or-None)` pair, preferring the
`ERRNO <n>` form whenever an errno is present, then `Timeout` for a
`socket.timeout`, then `Failed (Unknown)`. -/
def performActualReverseLookup (o : ResolverOutcome) :
    Option String × Option String :=
  match o with
  | .success h => (some h, none)
  | .herror (some n) => (none, some ("ERRNO " ++ toString n))
  | .gaierror (some n) => (none, some ("ERRNO " ++ toString n))
  | .timeout (some n) => (none, some ("ERRNO " ++ toString n))
  | .timeout none => (none, some "Timeout")
  | .herror none => (none, some "Failed (Unknown)")
  | .gaierror none => (none, some "Failed (Unknown)")

/-- The memoizing layer built by `initialize_dns_cache`: a
`functools.lru_cache`-style store keyed by IP string, most recently used
first. Each slot holds the resolved `(hostname, error, timestamp)` triple. -/
structure DnsCache where
  entries : List (String × (Option String × Option String × Int))
deriving Repr, DecidableEq

/-- Content lookup of a cache slot (order-insensitive observation). -/
def cacheFind (c : DnsCache) (ip : String) :
    Option (Option String × Option String × Int) :=
  (c.entries.find? (fun p => p.fst = ip)).map Prod.snd

/-- One call through the `lru_cache`-decorated `_dynamically_cached_lookup`:
a hit returns the stored triple (moved to most-recent position); a miss runs
the resolver once, stamps the result with the current time, stores it and
evicts beyond `maxSize`. The last component counts direct resolver calls. -/
def lruCachedLookup (maxSize : Nat)
    (resolver : String → Option String × Option String) (now : Int)
    (c : DnsCache) (ip : String) :
    (Option String × Option String × Int) × DnsCache × Nat :=
  match cacheFind c ip with
  | some v => (v, ⟨(ip, v) :: c.entries.filter (fun p => ¬p.fst = ip)⟩, 0)
  | none =>
    let r := resolver ip
    let v := (r.1, r.2, now)
    (v, ⟨((ip, v) :: c.entries).take maxSize⟩, 1)

/-- Model of `reverse_lookup`. `enabled` is the effective
`DNS_CACHE_SETTINGS["enabled"] and CACHED_DNS_LOOKUP_FUNC is not None`
condition; `resolver` stands for `_perform_actual_reverse_lookup` against the
current DNS environment; `now` is the wall clock (the code samples
`time.time()` once when storing and once when comparing; both samples are the
same pass). Returns the `(hostname, error)` pair, the cache after the call,
and how many direct resolutions the call performed. -/
def reverseLookup (enabled : Bool) (ttl : Int) (maxSize : Nat)
    (resolver : String → Option String × Option String) (now : Int)
    (c : DnsCache) (ip : String) :
    (Option String × Option String) × DnsCache × Nat :=
  if ¬enabled then (resolver ip, c, 1)
  else
    let (v, c1, k) := lruCachedLookup maxSize resolver now c ip
    if now - v.2.2 > ttl then (resolver ip, c1, k + 1)
    else ((v.1, v.2.1), c1, k)

/-! ## lib/maillogsentinel/log_utils.py — LineParser -/

/-- Python regex `\w` over the ASCII inputs of interest. -/
def isWordChar (c : Char) : Bool :=
  c.isAlphanum || c = '_'

/-- Maximal run of characters satisfying `p`, plus the remainder. -/
def takeRun (p : Char → Bool) (s : List Char) : List Char × List Char :=
  (s.takeWhile p, s.dropWhile p)

/-- Groups of a successful `LOG_RE.match`, with `rest` the suffix of the line
after the match end (`log_line_text[m_log.end():]`). -/
structure LogHead where
  month : String
  day : String
  time : String
  server : String
  rest : List Char
deriving Repr, DecidableEq

/-- Model of `LOG_RE.match` for
`^(?P<month>\w{3})\s+(?P<day>\d{1,2})\s+(?P<time>\d{2}:\d{2}:\d{2})\s+(?P<server>\S+)`.
Each `\s+`/`\S+` run is maximal, and a digit run longer than two characters
fails the `\d{1,2}\s+` sequence under every backtracking split, exactly as in
the regex engine. -/
def matchLogRe (s : List Char) : Option LogHead :=
  match s with
  | m1 :: m2 :: m3 :: afterMonth =>
    if isWordChar m1 && isWordChar m2 && isWordChar m3 then
      let (sp1, afterSp1) := takeRun pyIsSpace afterMonth
      let (ds, afterDay) := takeRun isDigitChar afterSp1
      let (sp2, afterSp2) := takeRun pyIsSpace afterDay
      if sp1 = [] ∨ ds = [] ∨ 2 < ds.length ∨ sp2 = [] then none
      else
        match afterSp2 with
        | h1 :: h2 :: ':' :: n1 :: n2 :: ':' :: e1 :: e2 :: afterTime =>
          if isDigitChar h1 && isDigitChar h2 && isDigitChar n1 && isDigitChar n2
              && isDigitChar e1 && isDigitChar e2 then
            let (sp3, afterSp3) := takeRun pyIsSpace afterTime
            let (sv, afterServer) := takeRun (fun c => ¬pyIsSpace c) afterSp3
            if sp3 = [] ∨ sv = [] then none
            else
              some ⟨⟨[m1, m2, m3]⟩, ⟨ds⟩,
                ⟨[h1, h2, ':', n1, n2, ':', e1, e2]⟩, ⟨sv⟩, afterServer⟩
          else none
        | _ => none
    else none
  | _ => none

/-- One octet group `\d{1,3}` that must be followed by a literal dot: the
digit run is maximal, so the only viable split takes the whole run (at most
three digits) and requires the next character to be `.`. Returns the octet
digits and the suffix after the dot. -/
def octetThenDot (s : List Char) : Option (List Char × List Char) :=
  let (ds, rest) := takeRun isDigitChar s
  if ds = [] ∨ 3 < ds.length then none
  else
    match rest with
    | '.' :: rest' => some (ds, rest')
    | _ => none

/-- The lazy tail `.*?sasl_username=(?P<user>[^,]+)` of `PAT`: scan left to
right for the marker (the dot cannot cross a newline, so a newline in the gap
fails the search); on a marker whose username group would be empty, the lazy
gap extends and the scan continues, as the engine backtracks. Returns the
username characters. -/
def findSaslUser : List Char → Option (List Char)
  | [] => none
  | c :: rest =>
    if (c :: rest).take 14 = "sasl_username=".data then
      let u := ((c :: rest).drop 14).takeWhile (fun x => ¬x = ',')
      if ¬u = [] then some u
      else if c = '\n' then none else findSaslUser rest
    else if c = '\n' then none else findSaslUser rest

/-- `PAT` matched at the start of `s`:
`(?P<ip>\d{1,3}(?:\.\d{1,3}){3}).*?sasl_username=(?P<user>[^,]+)`. The last
octet takes up to three digits greedily; giving digits back to the gap can
never turn a failed marker search into success, so no further backtracking is
modelled. -/
def matchPatAt (s : List Char) : Option (String × String) :=
  match octetThenDot s with
  | none => none
  | some (o1, r1) =>
    match octetThenDot r1 with
    | none => none
    | some (o2, r2) =>
      match octetThenDot r2 with
      | none => none
      | some (o3, r3) =>
        let (ds, r4) := takeRun isDigitChar r3
        if ds = [] then none
        else
          let o4 := ds.take 3
          let afterIp := ds.drop 3 ++ r4
          match findSaslUser afterIp with
          | none => none
          | some u =>
            some (⟨o1 ++ '.' :: o2 ++ '.' :: o3 ++ '.' :: o4⟩, ⟨u⟩)

/-- Model of `PAT.search`: leftmost start position at which `PAT` matches. -/
def patSearch : List Char → Option (String × String)
  | [] => none
  | c :: rest =>
    match matchPatAt (c :: rest) with
    | some r => some r
    | none => patSearch rest

/-- The `MONTHS` dictionary; `none` is the `KeyError` path. -/
def monthsMap (m : String) : Option Nat :=
  if m = "Jan" then some 1
  else if m = "Feb" then some 2
  else if m = "Mar" then some 3
  else if m = "Apr" then some 4
  else if m = "May" then some 5
  else if m = "Jun" then some 6
  else if m = "Jul" then some 7
  else if m = "Aug" then some 8
  else if m = "Sep" then some 9
  else if m = "Oct" then some 10
  else if m = "Nov" then some 11
  else if m = "Dec" then some 12
  else none

/-- `.replace("\n", " ").replace("\r", " ")` on usernames and hostnames. -/
def sanitize (s : String) : String :=
  ⟨s.data.map (fun c => if c = '\n' ∨ c = '\r' then ' ' else c)⟩

/-- Model of `_parse_log_line`. `geo` is the optional `ip_info_mgr` carrying
its two loaded tables; `rev` is the injected `reverse_lookup_func` restricted
to its returned pair. The result lists the returned dict's values in
insertion order: server, date, ip, user, hostname, reverse-DNS status,
country code, ASN, ASO. -/
def parseLogLine (line : String) (currentYear : Nat)
    (geo : Option (List GeoEntry × List GeoEntry))
    (rev : String → Option String × Option String) : Option (List String) :=
  match matchLogRe line.data with
  | none => none
  | some hd =>
    match patSearch hd.rest with
    | none => none
    | some (ip, user0) =>
      match monthsMap hd.month with
      | none => none
      | some monNum =>
        let day := digitsToNat hd.day.data
        let hhmm : String := ⟨hd.time.data.take 5⟩
        let dateS :=
          pad2 day ++ "/" ++ pad2 monNum ++ "/" ++ Nat.repr currentYear
            ++ " " ++ hhmm
        let user := sanitize (pyStrip user0)
        let r := rev ip
        let hostn := match r.1 with
          | some h => sanitize h
          | none => "null"
        let status := match r.1, r.2 with
          | some _, _ => "OK"
          | none, some e => sanitize e
          | none, none => "Failed (Unknown)"
        let geoFields := match geo with
          | none => ("N/A", "N/A", "N/A")
          | some (cdb, adb) =>
            match lookupIpInfo cdb adb ip with
            | none => ("N/A", "N/A", "N/A")
            | some gi => (gi.countryCode, gi.asn, gi.aso)
        some [hd.server, dateS, ip, user, hostn, status,
          geoFields.1, geoFields.2.1, geoFields.2.2]

/-- One CSV field under `csv.writer(..., delimiter=";", QUOTE_MINIMAL)`:
quoted, with inner quotes doubled, only when it contains the delimiter, the
quote character, or a line break. -/
def csvField (s : String) : String :=
  if s.data.any (fun c => c = ';' ∨ c = '"' ∨ c = '\n' ∨ c = '\r') then
    "\"" ++ ⟨s.data.flatMap (fun c => if c = '"' then ['"', '"'] else [c])⟩ ++ "\""
  else s

/-- Field texts joined by the `;` delimiter. -/
def csvRowChars : List String → List Char
  | [] => []
  | [f] => f.data
  | f :: rest => f.data ++ ';' :: csvRowChars rest

/-- One written CSV row (without the line terminator). -/
def csvRow (fields : List String) : String :=
  ⟨csvRowChars (fields.map csvField)⟩

/-! ## lib/maillogsentinel/utils.py — state file and log discovery -/

/-- Model of `read_state`. The argument is the observable state file:
`none` when `state_file.is_file()` is false, `some (.error e)` when
`read_text` raises an `IOError`, `some (.ok s)` its text. Returns the parsed
offset, or 0 on every failure path. -/
def readState (f : Option (Except String String)) : Int :=
  match f with
  | none => 0
  | some (.error _) => 0
  | some (.ok s) =>
    match pyInt (pyStrip s) with
    | some n => n
    | none => 0

/-- Model of `write_state`. The argument is the outcome of the underlying
`state_file.write_text(str(offset))` call; an `IOError` is caught and turned
into a logged error message. Returns the function's outcome (it has no
`raise`: a caught failure still returns normally) and the log lines emitted. -/
def writeState (w : Except String Unit) : Except String Unit × List String :=
  match w with
  | .ok _ => (.ok (), [])
  | .error e => (.ok (), ["Failed to write state: " ++ e])

/-- A file of the log directory: its name and its (decompressed, decoded)
text content. -/
structure LogFile where
  name : String
  content : String
deriving Repr, DecidableEq

/-- String begins-with test on code points (Python `str.startswith`, the
shell-glob match `name.*` restricted to the names of interest). -/
def strStartsWith (s p : String) : Bool :=
  s.data.take p.data.length = p.data

/-- String ends-with test on code points (Python `str.endswith`). -/
def strEndsWith (s p : String) : Bool :=
  s.data.drop (s.data.length - p.data.length) = p.data

/-- Lexicographic (code-point) strict comparison, the order `sorted` applies
to path names. -/
def charListLt : List Char → List Char → Bool
  | [], [] => false
  | [], _ :: _ => true
  | _ :: _, [] => false
  | a :: as, b :: bs => if a < b then true else if b < a then false else charListLt as bs

/-- Lexicographic insertion keeping the list sorted (`sorted` on path names). -/
def insertStr (s : String) : List String → List String
  | [] => [s]
  | x :: xs =>
    if ¬charListLt s.data x.data then x :: insertStr s xs else s :: x :: xs

/-- `sorted` on strings. -/
def sortStrs (l : List String) : List String :=
  l.foldl (fun acc s => insertStr s acc) []

/-- Model of `list_all_logs`: the main log first (when it exists), then the
sorted glob matches of `maillog.name + ".*"` in the same directory. -/
def listAllLogs (dir : List LogFile) (maillog : String) : List String :=
  (if dir.any (fun f => f.name = maillog) then [maillog] else []) ++
    sortStrs ((dir.map LogFile.name).filter
      (fun n => strStartsWith n (maillog ++ ".")))

/-- Model of `is_gzip`. -/
def isGzip (name : String) : Bool :=
  strEndsWith name ".gz"

/-! ## lib/maillogsentinel/parser.py — ExtractionPipeline -/

/-- File iteration lines: every chunk up to and including a newline, plus a
trailing chunk without one, exactly as Python text-file iteration yields. -/
def linesOf : List Char → List (List Char)
  | [] => []
  | c :: rest =>
    if c = '\n' then ['\n'] :: linesOf rest
    else
      match linesOf rest with
      | [] => [[c]]
      | l :: ls => (c :: l) :: ls

/-- Lines read from one file during a pass of `extract_entries`: gzip members
are read in full from their decompressed text; the active log is read from
the supplied offset unless its size is below the offset (rotation detected:
reset to 0); rotated plain files are read from the start. -/
def readFileLines (isActive : Bool) (offset : Nat) (f : LogFile) :
    List String :=
  if isGzip f.name then (linesOf f.content.data).map (fun l => ⟨l⟩)
  else
    let eff := if isActive then
      (if f.content.length < offset then 0 else offset) else 0
    (linesOf (f.content.data.drop eff)).map (fun l => ⟨l⟩)

/-- The raw line sequence a pass produces over the given file names, in
processing order (a name absent from the directory fails its `stat` and is
skipped). -/
def producedLines (dir : List LogFile) (names : List String)
    (maillog : String) (offset : Nat) : List String :=
  names.flatMap (fun n =>
    match dir.find? (fun f => f.name = n) with
    | none => []
    | some f => readFileLines (n = maillog) offset f)

/-- Result of one `extract_entries` call: whether the header row was written
(fresh sink), the data rows appended in order, and the returned offset. -/
structure ExtractResult where
  headerWritten : Bool
  rows : List (List String)
  newOffset : Nat
deriving Repr, DecidableEq

/-- Loop body of `extract_entries` for one file name: skip it when `stat`
fails (file absent), otherwise append the parsed rows of its lines, and take
the post-read `tell()` (the file size, as reading runs to end-of-file from a
position never beyond it) as the new offset when this is the active,
non-gzipped log. -/
def extractStep (dir : List LogFile) (maillog : String) (offset : Nat)
    (parse : String → Option (List String))
    (acc : List (List String) × Nat) (name : String) :
    List (List String) × Nat :=
  match dir.find? (fun f => f.name = name) with
  | none => acc
  | some f =>
    let isActive := name = maillog
    let rows := acc.1 ++ (readFileLines isActive offset f).filterMap parse
    let newOff := if isActive ∧ ¬isGzip f.name then f.content.length
      else acc.2
    (rows, newOff)

/-- Model of `extract_entries` over the directory `dir` and the file-name
list `names` (the caller's `filepaths`). The header is written exactly when
the sink file does not yet exist; the returned offset starts at the supplied
one and is updated only by the active non-gzipped log. -/
def extractEntries (dir : List LogFile) (names : List String)
    (maillog : String) (csvExists : Bool) (offset : Nat)
    (parse : String → Option (List String)) : ExtractResult :=
  let r := names.foldl (extractStep dir maillog offset parse) ([], offset)
  ⟨¬csvExists, r.1, r.2⟩

/-- The per-pass file selection of `main`: all logs (via `list_all_logs`)
when the stored offset is 0, otherwise only the active log. -/
def selectFiles (dir : List LogFile) (maillog : String) (lastOff : Nat) :
    List String :=
  if lastOff = 0 then listAllLogs dir maillog else [maillog]

/-- One extraction pass as `main` runs it: select the files from the stored
offset, then extract. -/
def mainPass (dir : List LogFile) (maillog : String) (csvExists : Bool)
    (lastOff : Nat) (parse : String → Option (List String)) : ExtractResult :=
  extractEntries dir (selectFiles dir maillog lastOff) maillog csvExists
    lastOff parse

/-! ## lib/maillogsentinel/log_reader.py — JournaldReader -/

/-- One record of a journald pass, abstracted to the fields the offset logic
inspects: whether `json.loads` succeeds, whether
`_convert_to_syslog_format` returns a line, and the optional
`__REALTIME_TIMESTAMP` value in microseconds. -/
structure JRecord where
  jsonOk : Bool
  convertOk : Bool
  realtime : Option Nat
deriving Repr, DecidableEq

/-- The reader state `read_entries`/`get_new_offset` consult. -/
structure JournaldState where
  sinceTimestamp : Option String
  lastTimestamp : Option String
deriving Repr, DecidableEq

/-- `JournaldReader.__init__`: `last_timestamp` starts as `since_timestamp`. -/
def journaldInit (since : Option String) : JournaldState :=
  ⟨since, since⟩

/-- State effect of `JournaldReader.read_entries`: the latest
`__REALTIME_TIMESTAMP // 1_000_000` among yielded records is kept, and
`last_timestamp` is updated to its decimal string only when that latest value
is truthy (present and nonzero). -/
def journaldReadPass (st : JournaldState) (records : List JRecord) :
    JournaldState :=
  let latest := records.foldl
    (fun acc r =>
      if r.jsonOk ∧ r.convertOk then
        match r.realtime with
        | some us => some (us / 1000000)
        | none => acc
      else acc)
    (none : Option Nat)
  match latest with
  | some t => if t = 0 then st else { st with lastTimestamp := some (Nat.repr t) }
  | none => st

/-- Model of `JournaldReader.get_new_offset`: parse `last_timestamp` as an
integer; on a falsy value (`None` or the empty string) or a parse failure,
return the current wall-clock Unix timestamp `now`. -/
def journaldGetNewOffset (st : JournaldState) (now : Int) : Int :=
  match st.lastTimestamp with
  | none => now
  | some s =>
    if s = "" then now
    else
      match pyInt s with
      | some n => n
      | none => now

/-! ## Concrete fixtures used by witnesses and counterexamples -/

/-- The database of the specification's own ordering example, loaded from the
pre-sort rows `1000,2000,US` and `500,900,CA`. -/
def dbPair : List GeoEntry :=
  loadSingleDb "country"
    [["start", "end", "country"], ["1000", "2000", "US"], ["500", "900", "CA"]]

/-- The log line of the specification's end-to-end example. -/
def exampleLine : String :=
  "Mar 15 10:00:00 server1 postfix/submission/smtpd[100]: client=unknown[1.1.1.1], sasl_method=PLAIN, sasl_username=user1@example.com\n"

/-- The message part of `exampleLine` after the `LOG_RE` match. -/
def exampleRest : List Char :=
  " postfix/submission/smtpd[100]: client=unknown[1.1.1.1], sasl_method=PLAIN, sasl_username=user1@example.com\n".data

/-- Country table for the example: `1.1.1.1` (16843009) maps to `C1`. -/
def exampleCountryDb : List GeoEntry :=
  [⟨16843009, 16843009, some "C1", none, none⟩]

/-- ASN table for the example: `1.1.1.1` maps to `AS1` / `ISP1`. -/
def exampleAsnDb : List GeoEntry :=
  [⟨16843009, 16843009, none, some "AS1", some "ISP1"⟩]

/-- Reverse lookup of the example: returns `("host1.com", null)`. -/
def exampleRev : String → Option String × Option String :=
  fun _ => (some "host1.com", none)

/-- A short parseable SASL-failure log line. -/
def shortLine : String :=
  "Mar 1 00:00:00 s 1.1.1.1 sasl_username=u\n"

/-- The parser instantiation used by concrete pass fixtures: no geolocation
manager, reverse lookups time out, year 2026. -/
def parseFix (line : String) : Option (List String) :=
  parseLogLine line 2026 none (fun _ => (none, some "Timeout"))

/-- The row `parseFix` extracts from `shortLine`. -/
def shortRow : List String :=
  ["s", "01/03/2026 00:00", "1.1.1.1", "u", "null", "Timeout", "N/A", "N/A", "N/A"]

/-- Directory with a one-line active log and a one-line rotated sibling. -/
def dirTwoLogs : List LogFile :=
  [⟨"mail.log", "active line\n"⟩, ⟨"mail.log.1", "rotated line\n"⟩]

/-- Directory with an empty active log and a rotated sibling holding one
parseable SASL-failure line. -/
def dirEmptyActive : List LogFile :=
  [⟨"mail.log", ""⟩, ⟨"mail.log.1", shortLine⟩]

/-- A two-line active log: one parseable SASL line, one non-matching line. -/
def activeFile : LogFile :=
  ⟨"mail.log", "Mar 1 00:00:00 s 1.1.1.1 sasl_username=u\nXYZ\n"⟩

/-- Directory with a two-line active log only. -/
def dirActiveOnly : List LogFile :=
  [activeFile]

/-! ## Theorems: binary-search lookup (C1) -/

set_option maxRecDepth 8000

/-- Unfolding equation of the search loop. -/
theorem searchLoop_eq (db : List GeoEntry) (ip : Nat) (low high : Int) :
    searchLoop db ip low high =
      if low ≤ high then
        match db[((low + high) / 2).toNat]? with
        | none => none
        | some entry =>
          if entryContains entry ip then some entry
          else if ip < entry.startIp then
            searchLoop db ip low ((low + high) / 2 - 1)
          else searchLoop db ip ((low + high) / 2 + 1) high
      else none := by
  rw [searchLoop]
  split
  · dsimp only
    split
    next h => rw [h]
    next entry h => rw [h]
  · rfl

/-- One evaluated iteration of the loop, for computing closed instances. -/
theorem searchLoop_step {db : List GeoEntry} {ip : Nat} {low high : Int}
    {m : Nat} {e : GeoEntry} {a b : Int}
    (h1 : low ≤ high) (h2 : ((low + high) / 2).toNat = m) (h3 : db[m]? = some e)
    (h4 : (low + high) / 2 - 1 = b) (h5 : (low + high) / 2 + 1 = a) :
    searchLoop db ip low high =
      if entryContains e ip then some e
      else if ip < e.startIp then searchLoop db ip low b
      else searchLoop db ip a high := by
  rw [searchLoop_eq, if_pos h1, h2, h3, h4, h5]

/-- The loop returns a miss when the window is empty. -/
theorem searchLoop_exit {db : List GeoEntry} {ip : Nat} {low high : Int}
    (h : ¬low ≤ high) : searchLoop db ip low high = none := by
  rw [searchLoop_eq, if_neg h]

/-- Boolean containment unfolded. -/
theorem entryContains_iff (e : GeoEntry) (ip : Nat) :
    entryContains e ip = true ↔ e.startIp ≤ ip ∧ ip ≤ e.endIp := by
  simp [entryContains]

/-- Soundness: whatever the loop returns is a database entry containing the
query, on any database whatsoever. -/
theorem searchLoop_sound (db : List GeoEntry) (ip : Nat) :
    ∀ (low high : Int) (e : GeoEntry), searchLoop db ip low high = some e →
      e ∈ db ∧ entryContains e ip := by
  intro low high
  induction low, high using searchLoop.induct db ip with
  | case1 low high hlh mid hget =>
    intro e h
    rw [searchLoop_eq, if_pos hlh] at h
    rw [show db[((low + high) / 2).toNat]? = none from hget] at h
    exact absurd h (by simp)
  | case2 low high hlh mid entry hget hc =>
    intro e h
    rw [searchLoop_eq, if_pos hlh] at h
    rw [show db[((low + high) / 2).toNat]? = some entry from hget] at h
    simp only [hc, if_pos] at h
    cases h
    exact ⟨List.getElem?_mem hget, hc⟩
  | case3 low high hlh mid entry hget hc hlt ih =>
    intro e h
    rw [searchLoop_eq, if_pos hlh] at h
    rw [show db[((low + high) / 2).toNat]? = some entry from hget] at h
    dsimp only at h
    rw [if_neg hc, if_pos hlt] at h
    exact ih e h
  | case4 low high hlh mid entry hget hc hlt ih =>
    intro e h
    rw [searchLoop_eq, if_pos hlh] at h
    rw [show db[((low + high) / 2).toNat]? = some entry from hget] at h
    dsimp only at h
    rw [if_neg hc, if_neg hlt] at h
    exact ih e h
  | case5 low high hlh =>
    intro e h
    rw [searchLoop_eq, if_neg hlh] at h
    exact absurd h (by simp)

/-- Completeness on sorted, pairwise-disjoint databases: a window containing
the index of a containing range makes the loop return that range. -/
theorem searchLoop_complete (db : List GeoEntry) (ip : Nat)
    (hsort : SortedByStart db) (hdisj : DisjointRanges db) :
    ∀ (n : Nat) (low high : Int) (j : Nat) (hj : j < db.length),
      (high + 1 - low).toNat ≤ n →
      entryContains (db.get ⟨j, hj⟩) ip = true →
      0 ≤ low → low ≤ (j : Int) → (j : Int) ≤ high → high < (db.length : Int) →
      searchLoop db ip low high = some (db.get ⟨j, hj⟩) := by
  have hpairS := (List.pairwise_iff_get).mp hsort
  have hpairD := (List.pairwise_iff_get).mp hdisj
  intro n
  induction n with
  | zero =>
    intro low high j hj hm hc h0 hlj hjh hhl
    omega
  | succ n ih =>
    intro low high j hj hm hc h0 hlj hjh hhl
    have hlh : low ≤ high := le_trans hlj hjh
    rw [searchLoop_eq, if_pos hlh]
    have hmid1 : low ≤ (low + high) / 2 := by omega
    have hmid2 : (low + high) / 2 ≤ high := by omega
    have hmids : ((low + high) / 2).toNat < db.length := by omega
    rw [List.getElem?_eq_getElem hmids]
    have hjc := (entryContains_iff _ _).mp hc
    simp only [List.get_eq_getElem] at hjc
    by_cases hcm : entryContains db[((low + high) / 2).toNat] ip = true
    · have hcm' := (entryContains_iff _ _).mp hcm
      have hjm : ((low + high) / 2).toNat = j := by
        by_contra hne
        rcases Nat.lt_or_ge ((low + high) / 2).toNat j with hlt | hge
        · have hD := hpairD ⟨((low + high) / 2).toNat, hmids⟩ ⟨j, hj⟩ hlt
          simp only [List.get_eq_getElem] at hD
          omega
        · have hlt' : j < ((low + high) / 2).toNat := by omega
          have hD := hpairD ⟨j, hj⟩ ⟨((low + high) / 2).toNat, hmids⟩ hlt'
          simp only [List.get_eq_getElem] at hD
          omega
      dsimp only
      rw [if_pos hcm]
      exact congrArg (fun x => some (db.get x)) (Fin.ext hjm)
    · dsimp only
      rw [if_neg hcm]
      have hcm' : ¬(db[((low + high) / 2).toNat].startIp ≤ ip ∧
          ip ≤ db[((low + high) / 2).toNat].endIp) := by
        intro hx
        exact hcm ((entryContains_iff _ _).mpr hx)
      by_cases hlt : ip < db[((low + high) / 2).toNat].startIp
      · rw [if_pos hlt]
        have hjlt : j < ((low + high) / 2).toNat := by
          by_contra hge
          rcases Nat.eq_or_lt_of_le (Nat.ge_of_not_lt hge) with heq | hgt
          · have hEq : db[((low + high) / 2).toNat] = db.get ⟨j, hj⟩ :=
              congrArg db.get (Fin.ext heq)
            simp only [List.get_eq_getElem] at hEq
            rw [hEq] at hlt
            omega
          · have hS := hpairS ⟨((low + high) / 2).toNat, hmids⟩ ⟨j, hj⟩ hgt
            simp only [List.get_eq_getElem] at hS
            omega
        exact ih low ((low + high) / 2 - 1) j hj (by omega) hc h0 hlj (by omega)
          (by omega)
      · rw [if_neg hlt]
        have hip : db[((low + high) / 2).toNat].endIp < ip := by omega
        have hjgt : ((low + high) / 2).toNat < j := by
          by_contra hge
          rcases Nat.eq_or_lt_of_le (Nat.ge_of_not_lt hge) with heq | hgt
          · have hEq : db[((low + high) / 2).toNat] = db.get ⟨j, hj⟩ :=
              congrArg db.get (Fin.ext heq.symm)
            simp only [List.get_eq_getElem] at hEq
            rw [hEq] at hip
            omega
          · have hD := hpairD ⟨j, hj⟩ ⟨((low + high) / 2).toNat, hmids⟩ hgt
            simp only [List.get_eq_getElem] at hD
            omega
        exact ih ((low + high) / 2 + 1) high j hj (by omega) hc (by omega)
          (by omega) hjh hhl

/-- C1, counterexample to the claim as stated: `dbOver` is a loaded database,
sorted ascending by `start_ip`; its first range `[0, 1000]` contains the
query 500, yet the binary-search lookup returns a miss, because the ranges
overlap and the search walks past the enclosing range. -/
theorem C1_claim_counterexample :
    SortedByStart dbOver ∧
    dbOver[0]? = some ⟨0, 1000, some "A", none, none⟩ ∧
    entryContains ⟨0, 1000, some "A", none, none⟩ 500 = true ∧
    searchIpInDatabase dbOver 500 = none := by
  refine ⟨by decide, by decide, by decide, ?_⟩
  have hdb : dbOver = [⟨0, 1000, some "A", none, none⟩,
      ⟨10, 20, some "B", none, none⟩, ⟨30, 40, some "C", none, none⟩] := by
    decide
  rw [searchIpInDatabase, hdb]
  show searchLoop _ 500 0 2 = none
  rw [@searchLoop_step _ 500 0 2 1 ⟨10, 20, some "B", none, none⟩ 2 0
      (by decide) (by decide) (by decide) (by decide) (by decide),
    if_neg (by decide), if_neg (by decide)]
  rw [@searchLoop_step _ 500 2 2 2 ⟨30, 40, some "C", none, none⟩ 3 1
      (by decide) (by decide) (by decide) (by decide) (by decide),
    if_neg (by decide), if_neg (by decide)]
  exact searchLoop_exit (by decide)

/-- C1 (amended: the ranges must additionally be pairwise non-overlapping):
on a database sorted ascending by `start_ip` whose ranges are pairwise
disjoint, every query inside a range `[start, end]` makes the binary-search
lookup return that entry, and every query contained in no range returns a
miss (`None`), not an error. -/
theorem C1_lookup_correct (db : List GeoEntry) (ip : Nat)
    (hsort : SortedByStart db) (hdisj : DisjointRanges db) :
    (∀ (j : Nat) (hj : j < db.length),
      entryContains (db.get ⟨j, hj⟩) ip = true →
      searchIpInDatabase db ip = some (db.get ⟨j, hj⟩)) ∧
    ((∀ e ∈ db, entryContains e ip = false) →
      searchIpInDatabase db ip = none) := by
  constructor
  · intro j hj hc
    exact searchLoop_complete db ip hsort hdisj db.length 0
      ((db.length : Int) - 1) j hj (by omega) hc (by omega) (by omega)
      (by omega) (by omega)
  · intro hmiss
    cases hres : searchIpInDatabase db ip with
    | none => rfl
    | some e =>
      have hs := searchLoop_sound db ip 0 ((db.length : Int) - 1) e hres
      have := hmiss e hs.1
      rw [this] at hs
      exact absurd hs.2 (by simp)

/-- C1 witness: the spec's own pre-sort rows `1000,2000,US` / `500,900,CA`,
loaded and then queried at 1500 (inside `US`), and at 50 (inside nothing). -/
theorem C1_lookup_correct_witness :
    searchIpInDatabase dbPair 1500 = some ⟨1000, 2000, some "US", none, none⟩
    ∧ searchIpInDatabase dbPair 50 = none := by
  constructor
  · have h := (C1_lookup_correct dbPair 1500 (by decide) (by decide)).1 1
      (by decide) (by decide)
    exact h.trans (by decide)
  · exact (C1_lookup_correct dbPair 50 (by decide) (by decide)).2 (by decide)

/-! ## Theorems: file ordering, rotation detection, idempotent re-run (C2–C4) -/

/-- C2, evaluated at the failing input: with an active `mail.log` and a
rotated sibling `mail.log.1`, `list_all_logs` places the active file first,
so the pass produces the active file's lines before the rotated file's lines
— not rotated-first as claimed (and as the docstrings of `list_all_logs` and
`extract_entries` intend). -/
theorem C2_active_file_read_first :
    listAllLogs dirTwoLogs "mail.log" = ["mail.log", "mail.log.1"] ∧
    producedLines dirTwoLogs (listAllLogs dirTwoLogs "mail.log") "mail.log" 0
      = ["active line\n", "rotated line\n"] ∧
    producedLines dirTwoLogs (listAllLogs dirTwoLogs "mail.log") "mail.log" 0
      ≠ ["rotated line\n", "active line\n"] := by
  refine ⟨by decide, by decide, by decide⟩

/-- C3: on a pass over the active log file, a size strictly below the
supplied offset makes the pass read the file in full from its start (the
offset is reset to 0), while a size at or above the offset makes reading
start at the supplied offset; either way the returned offset is the file's
end position. -/
theorem C3_rotation_detection (f : LogFile) (offset : Nat) (csvExists : Bool)
    (parse : String → Option (List String)) (hgz : isGzip f.name = false) :
    (f.content.length < offset →
      extractEntries [f] [f.name] f.name csvExists offset parse =
        ⟨¬csvExists,
          ((linesOf f.content.data).map (fun l => (⟨l⟩ : String))).filterMap parse,
          f.content.length⟩) ∧
    (offset ≤ f.content.length →
      extractEntries [f] [f.name] f.name csvExists offset parse =
        ⟨¬csvExists,
          ((linesOf (f.content.data.drop offset)).map
            (fun l => (⟨l⟩ : String))).filterMap parse,
          f.content.length⟩) := by
  constructor
  · intro h
    simp [extractEntries, extractStep, readFileLines, hgz, List.find?, h]
  · intro h
    have h' : ¬f.content.length < offset := Nat.not_lt.mpr h
    simp [extractEntries, extractStep, readFileLines, hgz, List.find?, h']

/-- C3 witness: the 45-byte active log read with offset 1000 (rotation: full
re-read extracts its SASL row) and with offset 3 (tail read, no row). -/
theorem C3_rotation_detection_witness :
    (activeFile.content.length < 1000 ∧
      extractEntries [activeFile] ["mail.log"] "mail.log" true 1000 parseFix =
        ⟨false, [shortRow], 45⟩) ∧
    (3 ≤ activeFile.content.length ∧
      extractEntries [activeFile] ["mail.log"] "mail.log" true 3 parseFix =
        ⟨false, [], 45⟩) := by
  constructor
  · exact ⟨by decide,
      (((C3_rotation_detection activeFile 1000 true parseFix (by decide)).1
        (by decide)).trans (by decide))⟩
  · exact ⟨by decide,
      (((C3_rotation_detection activeFile 3 true parseFix (by decide)).2
        (by decide)).trans (by decide))⟩

/-- The returned offset of a pass comes from the active log alone: after the
fold, it is the active file's size whenever the processed names include the
active log (found in the directory, not gzipped), else the accumulator's. -/
theorem extractFold_newOffset (dir : List LogFile) (maillog : String)
    (offset : Nat) (parse : String → Option (List String)) (f : LogFile)
    (hfind : dir.find? (fun g => g.name = maillog) = some f)
    (hgz : isGzip maillog = false) :
    ∀ (names : List String) (acc : List (List String) × Nat),
      (names.foldl (extractStep dir maillog offset parse) acc).2 =
        if names.contains maillog then f.content.length else acc.2 := by
  have hname : f.name = maillog := by
    have := List.find?_some hfind
    simpa using this
  intro names
  induction names with
  | nil => intro acc; simp
  | cons n ns ih =>
    intro acc
    simp only [List.foldl_cons, List.contains_cons]
    by_cases hn : n = maillog
    · subst hn
      have hstep : extractStep dir n offset parse acc n =
          ((acc.1 ++ (readFileLines true offset f).filterMap parse),
            f.content.length) := by
        simp [extractStep, hfind, hgz, hname]
      rw [hstep, ih]
      simp
    · have hstep2 : (extractStep dir maillog offset parse acc n).2 = acc.2 := by
        cases hf : dir.find? (fun g => g.name = n) with
        | none => simp [extractStep, hf]
        | some g => simp [extractStep, hf, hn]
      rw [ih]
      simp only [hstep2]
      have hbeq : (maillog == n) = false := by
        simp only [beq_eq_false_iff_ne, ne_eq]
        exact fun hx => hn hx.symm
      rw [hbeq]
      simp

/-- C4, counterexample to the claim as stated: with an empty active log and a
rotated sibling holding one SASL-failure line, the first pass returns resume
offset 0, and a second pass run with that offset (file unchanged) appends the
rotated file's row again instead of appending nothing — the zero offset makes
`main` re-select the rotated siblings. -/
theorem C4_claim_counterexample :
    (mainPass dirEmptyActive "mail.log" false 0 parseFix).newOffset = 0 ∧
    (mainPass dirEmptyActive "mail.log" true 0 parseFix).rows = [shortRow] ∧
    (mainPass dirEmptyActive "mail.log" true 0 parseFix).rows ≠ [] := by
  refine ⟨by decide, by decide, by decide⟩

/-- C4 (amended: the offset returned by the first pass must be nonzero, i.e.
the active log nonempty): a first pass over a directory containing the
(non-gzipped, nonempty) active log returns its size as the resume offset, and
a second pass started at that offset with the file unchanged appends no rows
and returns the offset it was given. -/
theorem C4_rerun_idempotent (dir : List LogFile) (maillog : String)
    (csvExists : Bool) (parse : String → Option (List String)) (off0 : Nat)
    (f : LogFile)
    (hfind : dir.find? (fun g => g.name = maillog) = some f)
    (hgz : isGzip maillog = false)
    (hne : f.content.length ≠ 0) :
    (mainPass dir maillog csvExists off0 parse).newOffset = f.content.length ∧
    (mainPass dir maillog true
        (mainPass dir maillog csvExists off0 parse).newOffset parse).rows = [] ∧
    (mainPass dir maillog true
        (mainPass dir maillog csvExists off0 parse).newOffset parse).newOffset =
      (mainPass dir maillog csvExists off0 parse).newOffset := by
  have hname : f.name = maillog := by
    have := List.find?_some hfind
    simpa using this
  have hmem : f ∈ dir := List.mem_of_find?_eq_some hfind
  have hany : dir.any (fun g => g.name = maillog) = true := by
    apply List.any_eq_true.mpr
    exact ⟨f, hmem, by simp [hname]⟩
  have hcontains : (selectFiles dir maillog off0).contains maillog = true := by
    by_cases h0 : off0 = 0
    · simp only [selectFiles, h0, if_pos, listAllLogs, hany]
      simp
    · simp [selectFiles, h0]
  have hoff1 : (mainPass dir maillog csvExists off0 parse).newOffset =
      f.content.length := by
    show ((selectFiles dir maillog off0).foldl
      (extractStep dir maillog off0 parse) ([], off0)).2 = f.content.length
    rw [extractFold_newOffset dir maillog off0 parse f hfind hgz _ _, hcontains]
    simp
  refine ⟨hoff1, ?_, ?_⟩ <;> rw [hoff1]
  · show (extractEntries dir (selectFiles dir maillog f.content.length) maillog
      true f.content.length parse).rows = []
    rw [show selectFiles dir maillog f.content.length = [maillog] from by
      simp [selectFiles, hne]]
    show ([maillog].foldl (extractStep dir maillog f.content.length parse)
      ([], f.content.length)).1 = []
    have hdrop : List.drop f.content.length f.content.data = [] :=
      List.drop_length f.content.data
    simp [extractStep, hfind, readFileLines, hgz, hname, hdrop, linesOf]
  · show (extractEntries dir (selectFiles dir maillog f.content.length) maillog
      true f.content.length parse).newOffset = f.content.length
    rw [show selectFiles dir maillog f.content.length = [maillog] from by
      simp [selectFiles, hne]]
    show ([maillog].foldl (extractStep dir maillog f.content.length parse)
      ([], f.content.length)).2 = f.content.length
    simp [extractStep, hfind, readFileLines, hgz, hname]

/-- C4 witness: the 45-byte active log, first pass from offset 0 (extracts
one row, returns 45), second pass from 45 (no rows, returns 45). -/
theorem C4_rerun_idempotent_witness :
    (mainPass dirActiveOnly "mail.log" false 0 parseFix).newOffset = 45 ∧
    (mainPass dirActiveOnly "mail.log" true 45 parseFix).rows = [] ∧
    (mainPass dirActiveOnly "mail.log" true 45 parseFix).newOffset = 45 := by
  obtain ⟨h1, h2, h3⟩ := C4_rerun_idempotent dirActiveOnly "mail.log" false
    parseFix 0 activeFile (by decide) (by decide) (by decide)
  have hlen : activeFile.content.length = 45 := by decide
  have h45 : (mainPass dirActiveOnly "mail.log" false 0 parseFix).newOffset
      = 45 := h1.trans hlen
  rw [h45] at h2 h3
  exact ⟨h45, h2, h3.trans h45⟩

/-! ## Theorems: DNS cache TTL behaviour (C5) -/

/-- C5: on a cache hit whose age exceeds the TTL, the call performs exactly
one fresh direct resolution and returns its result, while the memoized slot
still holds the stale tuple afterwards; on a hit within the TTL, the cached
tuple is returned with no fresh resolution, and the slot is likewise
unchanged. -/
theorem C5_ttl_refresh (ttl : Int) (maxSize : Nat)
    (resolver : String → Option String × Option String) (now : Int)
    (c : DnsCache) (ip : String) (h e : Option String) (ts : Int)
    (hhit : cacheFind c ip = some (h, e, ts)) :
    (now - ts > ttl →
      (reverseLookup true ttl maxSize resolver now c ip).1 = resolver ip ∧
      (reverseLookup true ttl maxSize resolver now c ip).2.2 = 1) ∧
    (¬now - ts > ttl →
      (reverseLookup true ttl maxSize resolver now c ip).1 = (h, e) ∧
      (reverseLookup true ttl maxSize resolver now c ip).2.2 = 0) ∧
    cacheFind (reverseLookup true ttl maxSize resolver now c ip).2.1 ip
      = some (h, e, ts) := by
  simp only [reverseLookup, lruCachedLookup, hhit]
  refine ⟨?_, ?_, ?_⟩
  · intro hstale
    simp [hstale]
  · intro hfresh
    simp [hfresh]
  · by_cases hstale : now - ts > ttl
    · simp [hstale, cacheFind, List.find?]
    · simp [hstale, cacheFind, List.find?]

/-- C5 witness: a slot stamped at 100 with TTL 50, queried at 200 (stale: one
fresh resolution returned, stale tuple still cached) and at 120 (fresh: the
cached tuple returned, no resolution). -/
theorem C5_ttl_refresh_witness :
    ((200 : Int) - 100 > 50 ∧
      (reverseLookup true 50 128 (fun _ => (some "fresh.host", none)) 200
        ⟨[("1.2.3.4", (some "old.host", none, 100))]⟩ "1.2.3.4").1
        = (some "fresh.host", none) ∧
      (reverseLookup true 50 128 (fun _ => (some "fresh.host", none)) 200
        ⟨[("1.2.3.4", (some "old.host", none, 100))]⟩ "1.2.3.4").2.2 = 1 ∧
      cacheFind (reverseLookup true 50 128 (fun _ => (some "fresh.host", none))
        200 ⟨[("1.2.3.4", (some "old.host", none, 100))]⟩ "1.2.3.4").2.1
        "1.2.3.4" = some (some "old.host", none, 100)) ∧
    (¬((120 : Int) - 100 > 50) ∧
      (reverseLookup true 50 128 (fun _ => (some "fresh.host", none)) 120
        ⟨[("1.2.3.4", (some "old.host", none, 100))]⟩ "1.2.3.4").1
        = (some "old.host", none) ∧
      (reverseLookup true 50 128 (fun _ => (some "fresh.host", none)) 120
        ⟨[("1.2.3.4", (some "old.host", none, 100))]⟩ "1.2.3.4").2.2 = 0) := by
  constructor
  · obtain ⟨hs, _, hc⟩ := C5_ttl_refresh 50 128
      (fun _ => (some "fresh.host", none)) 200
      ⟨[("1.2.3.4", (some "old.host", none, 100))]⟩ "1.2.3.4"
      (some "old.host") none 100 (by decide)
    obtain ⟨h1, h2⟩ := hs (by decide)
    exact ⟨by decide, h1, h2, hc⟩
  · obtain ⟨_, hf, _⟩ := C5_ttl_refresh 50 128
      (fun _ => (some "fresh.host", none)) 120
      ⟨[("1.2.3.4", (some "old.host", none, 100))]⟩ "1.2.3.4"
      (some "old.host") none 100 (by decide)
    obtain ⟨h1, h2⟩ := hf (by decide)
    exact ⟨by decide, h1, h2⟩

/-! ## Theorems: error handling of the state file and the resolver (C7, C8, C10) -/

/-- C7, counterexample to the claim as stated: a failing write of the
resume-position file does not propagate — `write_state` catches the
`IOError`, and the call completes normally instead of aborting the pass. -/
theorem C7_claim_counterexample :
    (writeState (Except.error "disk full")).1 = Except.ok () ∧
    (writeState (Except.error "disk full")).1 ≠ Except.error "disk full" :=
  ⟨rfl, fun h => Except.noConfusion h⟩

/-- C7 (amended: the error is swallowed, not fatal): `write_state` returns
normally whether or not the underlying write raises; a raising write is
caught and merely logged, so the pass continues. -/
theorem C7_write_state_swallows :
    (writeState (Except.ok ())).1 = Except.ok () ∧
    ∀ e, writeState (Except.error e) =
      (Except.ok (), ["Failed to write state: " ++ e]) :=
  ⟨rfl, fun _ => rfl⟩

/-- C8: the direct reverse-DNS resolution is a total function of the
resolver outcome — it never raises past its boundary — and it returns either
`(hostname, null)` on success or `(null, tag)` where the tag is a numbered
system error `ERRNO <n>`, `Timeout`, or `Failed (Unknown)`. -/
theorem C8_direct_lookup_classifies (o : ResolverOutcome) :
    (∃ h, performActualReverseLookup o = (some h, none)) ∨
    (∃ msg, performActualReverseLookup o = (none, some msg) ∧
      ((∃ n : Int, msg = "ERRNO " ++ toString n) ∨ msg = "Timeout" ∨
        msg = "Failed (Unknown)")) := by
  cases o with
  | success h => exact Or.inl ⟨h, rfl⟩
  | herror n =>
    cases n with
    | none => exact Or.inr ⟨"Failed (Unknown)", rfl, Or.inr (Or.inr rfl)⟩
    | some n => exact Or.inr ⟨"ERRNO " ++ toString n, rfl, Or.inl ⟨n, rfl⟩⟩
  | gaierror n =>
    cases n with
    | none => exact Or.inr ⟨"Failed (Unknown)", rfl, Or.inr (Or.inr rfl)⟩
    | some n => exact Or.inr ⟨"ERRNO " ++ toString n, rfl, Or.inl ⟨n, rfl⟩⟩
  | timeout n =>
    cases n with
    | none => exact Or.inr ⟨"Timeout", rfl, Or.inr (Or.inl rfl)⟩
    | some n => exact Or.inr ⟨"ERRNO " ++ toString n, rfl, Or.inl ⟨n, rfl⟩⟩

/-- C10: reading the resume position is total; a missing state file, an
unreadable one, and one whose stripped text is not a valid decimal integer
all yield 0, while a valid integer is returned as stored. -/
theorem C10_read_state_defaults (e s : String) :
    readState none = 0 ∧
    readState (some (Except.error e)) = 0 ∧
    (pyInt (pyStrip s) = none → readState (some (Except.ok s)) = 0) ∧
    (∀ n : Int, pyInt (pyStrip s) = some n →
      readState (some (Except.ok s)) = n) := by
  refine ⟨rfl, rfl, ?_, ?_⟩
  · intro h
    simp [readState, h]
  · intro n h
    simp [readState, h]

/-- C10 witness: a missing file, a read error, a non-numeric file, and the
stored text ` 123\n`. -/
theorem C10_read_state_defaults_witness :
    readState none = 0 ∧
    readState (some (Except.error "EACCES")) = 0 ∧
    readState (some (Except.ok "garbage")) = 0 ∧
    readState (some (Except.ok " 123\n")) = 123 :=
  ⟨(C10_read_state_defaults "EACCES" "garbage").1,
    (C10_read_state_defaults "EACCES" "garbage").2.1,
    (C10_read_state_defaults "EACCES" "garbage").2.2.1 (by decide),
    (C10_read_state_defaults "x" " 123\n").2.2.2 123 (by decide)⟩

/-! ## Theorems: journald resume position (C9) -/

/-- C9: a journald pass that yields no parsed record carrying a realtime
timestamp leaves `last_timestamp` at its initial `None`, so
`get_new_offset` returns the current wall-clock Unix timestamp — the
previously supplied resume position is not even an input of the function. -/
theorem C9_offset_advances_to_now (records : List JRecord) (now : Int)
    (hnone : ∀ r ∈ records, r.jsonOk = false ∨ r.convertOk = false ∨
      r.realtime = none) :
    journaldGetNewOffset (journaldReadPass (journaldInit none) records) now
      = now := by
  have hlatest : records.foldl
      (fun acc r =>
        if r.jsonOk ∧ r.convertOk then
          match r.realtime with
          | some us => some (us / 1000000)
          | none => acc
        else acc)
      (none : Option Nat) = none := by
    induction records with
    | nil => rfl
    | cons r rs ih =>
      have hr := hnone r (List.mem_cons_self r rs)
      simp only [List.foldl_cons]
      have hstep : (if r.jsonOk ∧ r.convertOk then
          match r.realtime with
          | some us => some (us / 1000000)
          | none => (none : Option Nat)
          else none) = none := by
        rcases hr with h | h | h
        · simp [h]
        · simp [h]
        · simp [h]
      rw [hstep]
      exact ih (fun x hx => hnone x (List.mem_cons_of_mem r hx))
  show journaldGetNewOffset
    (journaldReadPass ⟨none, none⟩ records) now = now
  unfold journaldReadPass
  rw [hlatest]
  rfl

/-- C9 witness: one converted record without a realtime timestamp and one
unparseable record; the new offset is the supplied clock value 777. -/
theorem C9_offset_advances_to_now_witness :
    journaldGetNewOffset (journaldReadPass (journaldInit none)
      [⟨true, true, none⟩, ⟨false, true, some 5000000⟩]) 777 = 777 :=
  C9_offset_advances_to_now [⟨true, true, none⟩, ⟨false, true, some 5000000⟩]
    777 (by decide)

/-! ## Theorems: the end-to-end example row (C6) -/

/-- `Nat.digitChar` of a value below ten is a decimal digit. -/
theorem digitChar_isDigit (m : Nat) (h : m < 10) :
    (Nat.digitChar m).isDigit = true := by
  interval_cases m <;> decide

/-- Characters produced by the decimal rendering loop are digits or come
from the accumulator. -/
theorem mem_toDigitsCore_isDigit :
    ∀ (f n : Nat) (acc : List Char) (c : Char),
      c ∈ Nat.toDigitsCore 10 f n acc → c.isDigit = true ∨ c ∈ acc := by
  intro f
  induction f with
  | zero =>
    intro n acc c h
    simp only [Nat.toDigitsCore] at h
    exact Or.inr h
  | succ f ih =>
    intro n acc c h
    simp only [Nat.toDigitsCore] at h
    by_cases hdiv : n / 10 = 0
    · rw [if_pos hdiv] at h
      rcases List.mem_cons.mp h with h1 | h1
      · exact Or.inl (h1 ▸ digitChar_isDigit (n % 10) (Nat.mod_lt n (by norm_num)))
      · exact Or.inr h1
    · rw [if_neg hdiv] at h
      rcases ih (n / 10) (Nat.digitChar (n % 10) :: acc) c h with h1 | h1
      · exact Or.inl h1
      · rcases List.mem_cons.mp h1 with h2 | h2
        · exact Or.inl (h2 ▸ digitChar_isDigit (n % 10) (Nat.mod_lt n (by norm_num)))
        · exact Or.inr h2

/-- Every character of `Nat.repr n` is a decimal digit. -/
theorem repr_chars_isDigit (n : Nat) :
    ∀ c ∈ (Nat.repr n).data, c.isDigit = true := by
  intro c hc
  have hc' : c ∈ Nat.toDigitsCore 10 (n + 1) n [] := hc
  rcases mem_toDigitsCore_isDigit (n + 1) n [] c hc' with h | h
  · exact h
  · exact absurd h (List.not_mem_nil c)

/-- A digit is none of the characters that force CSV quoting. -/
theorem digit_not_csv_special (c : Char) (h : c.isDigit = true) :
    ¬(c = ';' ∨ c = '"' ∨ c = '\n' ∨ c = '\r') := by
  rintro (rfl | rfl | rfl | rfl) <;> exact absurd h (by decide)

/-- `QUOTE_MINIMAL` leaves a field without special characters untouched. -/
theorem csvField_safe (s : String)
    (h : s.data.any (fun c => c = ';' ∨ c = '"' ∨ c = '\n' ∨ c = '\r') = false) :
    csvField s = s := by
  unfold csvField
  rw [h]
  simp

/-- String concatenation concatenates the character lists. -/
theorem data_append (a b : String) : (a ++ b).data = a.data ++ b.data := rfl

/-- C6: parsing the example log line with the reverse lookup returning
`("host1.com", null)` and the geolocation tables mapping `1.1.1.1` to
`C1`/`AS1`/`ISP1` produces exactly the semicolon-delimited sink row
`server1;15/03/<current-year> 10:00;1.1.1.1;user1@example.com;host1.com;OK;C1;AS1;ISP1`,
for every wall-clock year used as the parse-time year. -/
theorem C6_example_sink_row (year : Nat) :
    (parseLogLine exampleLine year (some (exampleCountryDb, exampleAsnDb))
        exampleRev).map csvRow =
      some ("server1;15/03/" ++ Nat.repr year ++
        " 10:00;1.1.1.1;user1@example.com;host1.com;OK;C1;AS1;ISP1") := by
  have hm : matchLogRe exampleLine.data =
      some ⟨"Mar", "15", "10:00:00", "server1", exampleRest⟩ := by decide
  have hp : patSearch exampleRest = some ("1.1.1.1", "user1@example.com\n") := by
    decide
  have hc1 : searchIpInDatabase exampleCountryDb 16843009 =
      some ⟨16843009, 16843009, some "C1", none, none⟩ := by
    rw [searchIpInDatabase]
    show searchLoop _ 16843009 0 0 = _
    rw [@searchLoop_step _ 16843009 0 0 0
        ⟨16843009, 16843009, some "C1", none, none⟩ 1 (-1)
        (by decide) (by decide) (by decide) (by decide) (by decide),
      if_pos (by decide)]
  have hc2 : searchIpInDatabase exampleAsnDb 16843009 =
      some ⟨16843009, 16843009, none, some "AS1", some "ISP1"⟩ := by
    rw [searchIpInDatabase]
    show searchLoop _ 16843009 0 0 = _
    rw [@searchLoop_step _ 16843009 0 0 0
        ⟨16843009, 16843009, none, some "AS1", some "ISP1"⟩ 1 (-1)
        (by decide) (by decide) (by decide) (by decide) (by decide),
      if_pos (by decide)]
  have hgeo : lookupIpInfo exampleCountryDb exampleAsnDb "1.1.1.1" =
      some ⟨"C1", "AS1", "ISP1"⟩ := by
    unfold lookupIpInfo searchIpInDatabaseStr
    rw [show ipToInt "1.1.1.1" = some 16843009 from by decide]
    dsimp only
    rw [hc1, hc2]
    decide
  unfold parseLogLine
  rw [hm]
  dsimp only
  rw [hp]
  dsimp only
  rw [show monthsMap "Mar" = some 3 from by decide]
  dsimp only
  rw [hgeo]
  simp only [exampleRev]
  rw [show pad2 (digitsToNat ['1', '5']) = "15" from by decide,
    show pad2 3 = "03" from by decide,
    show (⟨List.take 5 ['1', '0', ':', '0', '0', ':', '0', '0']⟩ : String)
      = "10:00" from by decide,
    show sanitize (pyStrip "user1@example.com\n") = "user1@example.com" from by
      decide,
    show sanitize "host1.com" = "host1.com" from by decide]
  have hR : (Nat.repr year).data.any
      (fun c => c = ';' ∨ c = '"' ∨ c = '\n' ∨ c = '\r') = false := by
    rw [List.any_eq_false]
    intro c hc
    simpa using digit_not_csv_special c (repr_chars_isDigit year c hc)
  have hdate : csvField ("15" ++ "/" ++ "03" ++ "/" ++ Nat.repr year ++ " "
      ++ "10:00") = "15" ++ "/" ++ "03" ++ "/" ++ Nat.repr year ++ " "
      ++ "10:00" := by
    apply csvField_safe
    simp only [data_append, List.any_append, hR]
    decide
  rw [Option.map_some']
  refine congrArg some ?_
  unfold csvRow
  refine congrArg String.mk ?_
  dsimp only [List.map, csvRowChars]
  rw [hdate]
  simp only [data_append, List.append_assoc]
  rfl

end MailLogSentinel
